import Mathlib

/-!
Verification development for the aws-tools repository (ls-vpc and ls-rds).

The Rust sources are shallowly embedded: every remote AWS API is modelled as
an environment record whose fields give the response (or provider error) of
one API call, and each library function becomes a Lean function over that
environment.  Fallible Rust functions returning eyre Result become Except
valued functions; functions whose source can only ever return Ok are embedded
as total functions, with the log-and-continue error branches kept explicit.
-/

/-! ### A computable lexicographic order on strings

Rust sorts `Vec<String>` by byte-wise lexicographic comparison, which agrees
with code-point lexicographic comparison on the underlying character
sequences.  The order is embedded as a boolean comparison on character lists
(the built-in String order does not reduce inside the kernel). -/

/-! ### ls-vpc data model (src/ls-vpc)

Embedding of the AWS response shapes the ls-vpc library reads.  Only the
fields the source consumes are modelled; optional provider fields stay
`Option`. -/

/-! ### ls-rds data model (src/ls-rds) -/

/-! ### Claims -/

namespace AwsTools

/-- A provider error carrying the machine readable error code used by the
source to detect the NotFound condition, plus a display message. -/
structure AwsError where
  code : Option String
  message : String
deriving DecidableEq

/-- Strict code-point lexicographic comparison of character lists. -/
def charsLtb : List Char → List Char → Bool
  | [], [] => false
  | [], _ :: _ => true
  | _ :: _, [] => false
  | c :: cs, d :: ds =>
    if c.toNat < d.toNat then true
    else if d.toNat < c.toNat then false
    else charsLtb cs ds

/-- Strict lexicographic order on strings. -/
def strLt (a b : String) : Prop := charsLtb a.data b.data = true

/-- Reflexive lexicographic order on strings, as the negation of the reverse
strict order. -/
def strLe (a b : String) : Prop := ¬ strLt b a

instance : DecidableRel strLt := fun a b => by
  unfold strLt; infer_instance

instance : DecidableRel strLe := fun a b => by
  unfold strLe; infer_instance

/-- The embedding of a Rust `vec.sort()` on strings. -/
def sortStrings (l : List String) : List String := List.insertionSort strLe l

/-- The embedding of a Rust `vec.dedup()` (removal of consecutive duplicate
elements). -/
def dedupConsec : List String → List String
  | [] => []
  | [a] => [a]
  | a :: b :: rest =>
    if a = b then dedupConsec (b :: rest) else a :: dedupConsec (b :: rest)

/-- The result of a Rust `v.sort(); v.dedup();` sequence on strings. -/
def sortDedup (l : List String) : List String := dedupConsec (sortStrings l)

/-- The Rust `str::starts_with` test, on the underlying character lists. -/
def strStartsWith (s pre : String) : Bool := decide (pre.data <+: s.data)

/-- The Rust `str::contains` substring test, on the underlying character
lists. -/
def containsSubstr (s pat : String) : Bool := decide (pat.data <:+: s.data)

/-- The Rust `str::split(sep)` iterator, on the underlying character lists:
splits at every separator occurrence, keeping empty pieces. -/
def splitChars (sep : Char) : List Char → List (List Char)
  | [] => [[]]
  | c :: rest =>
    let r := splitChars sep rest
    if c = sep then [] :: r
    else
      match r with
      | [] => [[c]]
      | h :: t => (c :: h) :: t

/-- The `arn.split(':').nth(4).unwrap_or_default()` account extraction of
ls-rds (lib.rs process_role_arns / config.rs extract_account_from_arn). -/
def arnAccountField (arn : String) : String :=
  ((splitChars ':' arn.data).map fun l => String.mk l).getD 4 ""

/-- The Rust `str::trim`, on the underlying character lists. -/
def strTrim (s : String) : String :=
  String.mk
    (((s.data.dropWhile Char.isWhitespace).reverse.dropWhile
        Char.isWhitespace).reverse)

namespace LsVpc

/-- An EC2 resource tag (`key()` and `value()` are both optional). -/
structure Tag where
  key : Option String
  value : Option String
deriving DecidableEq

/-- One VPC as returned by describe_vpcs.  The association-set fields hold the
`cidr_block()` / `ipv6_cidr_block()` of each association entry. -/
structure Vpc where
  vpcId : Option String
  tags : List Tag
  cidrBlock : Option String
  cidrBlockAssociationSet : List (Option String)
  ipv6CidrBlockAssociationSet : List (Option String)
deriving DecidableEq

/-- VPC peering connection state codes. -/
inductive PeeringState where
  | active
  | pendingAcceptance
  | rejected
  | deleted
  | expired
  | failed
  | provisioning
  | deleting
  | initiatingRequest
deriving DecidableEq

/-- One VPC peering connection; `status` and the two side ids are optional. -/
structure VpcPeeringConnection where
  status : Option PeeringState
  requesterVpcId : Option String
  accepterVpcId : Option String
deriving DecidableEq

/-- Which filter name a describe_vpc_peering_connections call uses:
`requester-vpc-info.vpc-id` or `accepter-vpc-info.vpc-id`. -/
inductive PeerSide where
  | requester
  | accepter
deriving DecidableEq

/-- A single AWS resource discovered inside a VPC (scanner.rs). -/
structure ResourceRecord where
  arn : String
  rtype : String
  name : String
deriving DecidableEq

/-- One EC2 instance from the describe_instances paginator. -/
structure InstanceRec where
  instanceId : Option String
  tags : List Tag
deriving DecidableEq

/-- One network interface from describe_network_interfaces. -/
structure EniRec where
  networkInterfaceId : Option String
  description : Option String
deriving DecidableEq

/-- One NAT gateway from describe_nat_gateways. -/
structure NgwRec where
  natGatewayId : Option String
deriving DecidableEq

/-- One flow log from describe_flow_logs. -/
structure FlowLogRec where
  flowLogId : Option String
  logGroupName : Option String
deriving DecidableEq

/-- One load balancer from describe_load_balancers. -/
structure LbRec where
  loadBalancerArn : Option String
  loadBalancerName : Option String
  vpcId : Option String
deriving DecidableEq

/-- One target group from describe_target_groups. -/
structure TgRec where
  targetGroupArn : Option String
  targetGroupName : Option String
  vpcId : Option String
deriving DecidableEq

/-- One RDS DB instance; `dbSubnetGroupVpcId` models
`db_subnet_group().and_then(vpc_id)`. -/
structure DbInstanceRec where
  dbInstanceArn : Option String
  dbInstanceIdentifier : Option String
  dbSubnetGroupVpcId : Option String
deriving DecidableEq

/-- One RDS or DocumentDB cluster. -/
structure DbClusterRec where
  dbClusterArn : Option String
  dbClusterIdentifier : Option String
deriving DecidableEq

/-- The per-region AWS API world seen by one loaded SdkConfig: each field is
the response (or provider error) of one remote call the ls-vpc library makes.
Calls the provider filters server-side are functions of the filter value. -/
structure RegionEnv where
  describeVpcsById : String → Except AwsError (List Vpc)
  describeVpcsAll : Except AwsError (List Vpc)
  describeInternetGateways : String → Except AwsError (List String)
  describeVpcPeeringConnections : PeerSide → String →
    Except AwsError (List VpcPeeringConnection)
  describeInstancesItems : String → List (Except AwsError InstanceRec)
  describeNetworkInterfaces : String → Except AwsError (List EniRec)
  describeNatGateways : String → Except AwsError (List NgwRec)
  describeFlowLogs : String → Except AwsError (List FlowLogRec)
  describeLoadBalancers : Except AwsError (List LbRec)
  describeTargetGroups : Except AwsError (List TgRec)
  describeDbInstances : Except AwsError (List DbInstanceRec)
  describeDbClusters : Except AwsError (List DbClusterRec)
  describeDocdbClusters : Except AwsError (List DbClusterRec)

/-- Summary information about a VPC (lib.rs VpcSummary). -/
structure VpcSummary where
  name : Option String
  public : Bool
  cidrs : List String
  peers : List String
  resources : List ResourceRecord
deriving DecidableEq

/-- The BTreeMap of lib.rs ScanResult, embedded as an association list kept
strictly sorted by key; `mapInsert` below maintains the invariant. -/
abbrev VpcMap := List ((String × String) × VpcSummary)

/-- Result of a VPC scan operation (lib.rs ScanResult). -/
structure ScanResult where
  vpcs : VpcMap
  regionsScanned : Nat
deriving DecidableEq

/-- The `Name` tag lookup of lib.rs:
`tags().iter().find(key == Name).and_then(value)`. -/
def vpcNameTag (tags : List Tag) : Option String :=
  (tags.find? fun t => t.key = some "Name").bind fun t => t.value

/-- lib.rs list_filtered_vpcs: query each explicit id individually, skipping
ids whose query fails with the InvalidVpcID.NotFound code. -/
def list_filtered_vpcs (renv : RegionEnv) :
    List String → Except AwsError (List (String × Option String))
  | [] => .ok []
  | id :: rest =>
    match renv.describeVpcsById id with
    | .ok resp =>
      (list_filtered_vpcs renv rest).map fun out =>
        (resp.map fun v => (v.vpcId.getD "", vpcNameTag v.tags)) ++ out
    | .error e =>
      if e.code = some "InvalidVpcID.NotFound" then list_filtered_vpcs renv rest
      else .error e

/-- lib.rs list_all_vpcs. -/
def list_all_vpcs (renv : RegionEnv) :
    Except AwsError (List (String × Option String)) :=
  renv.describeVpcsAll.map fun vpcs =>
    vpcs.map fun v => (v.vpcId.getD "", vpcNameTag v.tags)

/-- lib.rs list_vpcs: all VPCs when the filter is empty, otherwise the
filtered listing. -/
def list_vpcs (renv : RegionEnv) (filter : List String) :
    Except AwsError (List (String × Option String)) :=
  if filter.isEmpty then list_all_vpcs renv else list_filtered_vpcs renv filter

/-- lib.rs is_public: true iff the internet-gateway listing filtered by
`attachment.vpc-id` is non-empty. -/
def is_public (renv : RegionEnv) (vpcId : String) : Except AwsError Bool :=
  (renv.describeInternetGateways vpcId).map fun gws => !gws.isEmpty

/-- lib.rs collect_peers: keep the connections in the Active state and push
what `extract_other` yields, in response order. -/
def collect_peers (renv : RegionEnv) (vpcId : String) (side : PeerSide)
    (extractOther : VpcPeeringConnection → Option String) :
    Except AwsError (List String) :=
  (renv.describeVpcPeeringConnections side vpcId).map fun conns =>
    conns.filterMap fun pc =>
      if pc.status = some PeeringState.active then extractOther pc else none

/-- lib.rs get_peer_vpcs: accepter side of connections where this VPC is the
requester, then requester side where it is the accepter; sorted and
de-duplicated. -/
def get_peer_vpcs (renv : RegionEnv) (vpcId : String) :
    Except AwsError (List String) := do
  let a ← collect_peers renv vpcId .requester fun pc => pc.accepterVpcId
  let b ← collect_peers renv vpcId .accepter fun pc => pc.requesterVpcId
  .ok (sortDedup (a ++ b))

/-- lib.rs get_cidrs: primary block, then IPv4 association blocks, then IPv6
association blocks of the first returned VPC; sorted and de-duplicated. -/
def get_cidrs (renv : RegionEnv) (vpcId : String) :
    Except AwsError (List String) :=
  (renv.describeVpcsById vpcId).map fun resp =>
    let cidrs :=
      match resp.head? with
      | none => []
      | some vpc =>
        vpc.cidrBlock.toList ++ vpc.cidrBlockAssociationSet.filterMap id ++
          vpc.ipv6CidrBlockAssociationSet.filterMap id
    sortDedup cidrs

/-- The instance half of Ec2Scanner::scan: the paginator items are consumed
in order and the first erroring item aborts the whole scan. -/
def ec2CollectInstances : List (Except AwsError InstanceRec) →
    Except AwsError (List ResourceRecord)
  | [] => .ok []
  | .error e :: _ => .error e
  | .ok inst :: rest =>
    (ec2CollectInstances rest).map fun recs =>
      { arn := inst.instanceId.getD "", rtype := "ec2.instance",
        name := (vpcNameTag inst.tags).getD "" } :: recs

/-- scanner.rs Ec2Scanner::scan. -/
def ec2ScannerScan (renv : RegionEnv) (vpcId : String) :
    Except AwsError (List ResourceRecord) := do
  let instRecs ← ec2CollectInstances (renv.describeInstancesItems vpcId)
  let enis ← renv.describeNetworkInterfaces vpcId
  let eniRecs := enis.map fun eni =>
    ResourceRecord.mk (eni.networkInterfaceId.getD "") "ec2.eni"
      (eni.description.getD "")
  let ngws ← renv.describeNatGateways vpcId
  let ngwRecs := ngws.map fun n =>
    ResourceRecord.mk (n.natGatewayId.getD "") "ec2.nat-gateway"
      (n.natGatewayId.getD "")
  let fls ← renv.describeFlowLogs vpcId
  let flRecs := fls.map fun f =>
    ResourceRecord.mk (f.flowLogId.getD "") "ec2.flow-log"
      (f.logGroupName.getD "")
  .ok (instRecs ++ eniRecs ++ ngwRecs ++ flRecs)

/-- scanner.rs ElbScanner::scan: unfiltered listings post-filtered by the
vpc_id field. -/
def elbScannerScan (renv : RegionEnv) (vpcId : String) :
    Except AwsError (List ResourceRecord) := do
  let lbs ← renv.describeLoadBalancers
  let lbRecs := (lbs.filter fun lb => lb.vpcId = some vpcId).map fun lb =>
    ResourceRecord.mk (lb.loadBalancerArn.getD "") "elbv2.load-balancer"
      (lb.loadBalancerName.getD "")
  let tgs ← renv.describeTargetGroups
  let tgRecs := (tgs.filter fun tg => tg.vpcId = some vpcId).map fun tg =>
    ResourceRecord.mk (tg.targetGroupArn.getD "") "elbv2.target-group"
      (tg.targetGroupName.getD "")
  .ok (lbRecs ++ tgRecs)

/-- scanner.rs RdsScanner::scan: DB instances filtered by the nested subnet
group vpc id; RDS and DocumentDB clusters listed with no VPC filter. -/
def rdsScannerScan (renv : RegionEnv) (vpcId : String) :
    Except AwsError (List ResourceRecord) := do
  let dbs ← renv.describeDbInstances
  let dbRecs := (dbs.filter fun db => db.dbSubnetGroupVpcId = some vpcId).map
    fun db => ResourceRecord.mk (db.dbInstanceArn.getD "") "rds.instance"
      (db.dbInstanceIdentifier.getD "")
  let cls ← renv.describeDbClusters
  let clRecs := cls.map fun cl =>
    ResourceRecord.mk (cl.dbClusterArn.getD "") "rds.cluster"
      (cl.dbClusterIdentifier.getD "")
  let dcls ← renv.describeDocdbClusters
  let dclRecs := dcls.map fun cl =>
    ResourceRecord.mk (cl.dbClusterArn.getD "") "docdb.cluster"
      (cl.dbClusterIdentifier.getD "")
  .ok (dbRecs ++ clRecs ++ dclRecs)

/-- The `if let Ok(mut res) = s.scan(..)` pattern of lib.rs run: an erroring
scanner contributes no records. -/
def okOrEmpty (r : Except AwsError (List ResourceRecord)) :
    List ResourceRecord :=
  match r with
  | .ok l => l
  | .error _ => []

/-- The resources accumulated by the scanner loop of lib.rs run, in registry
order Ec2Scanner, ElbScanner, RdsScanner. -/
def vpcResources (renv : RegionEnv) (vpcId : String) : List ResourceRecord :=
  okOrEmpty (ec2ScannerScan renv vpcId) ++ okOrEmpty (elbScannerScan renv vpcId)
    ++ okOrEmpty (rdsScannerScan renv vpcId)

/-- The body of the per-VPC loop of lib.rs run: peers, public flag and CIDRs
are fatal on error (question-mark operator); scanners are isolated. -/
def scanVpcSummary (renv : RegionEnv) (summaryOnly : Bool) (vpcId : String)
    (name : Option String) : Except AwsError VpcSummary := do
  let peers ← get_peer_vpcs renv vpcId
  let pub ← is_public renv vpcId
  let cidrs ← get_cidrs renv vpcId
  .ok { name := name, public := pub, cidrs := cidrs, peers := peers,
        resources := if summaryOnly then [] else vpcResources renv vpcId }

/-- Strict lexicographic order on (region, vpc-id) keys: the BTreeMap key
order of lib.rs ScanResult. -/
def keyLt (a b : String × String) : Prop :=
  strLt a.1 b.1 ∨ (a.1 = b.1 ∧ strLt a.2 b.2)

instance : DecidableRel keyLt := fun a b => by
  unfold keyLt; infer_instance

/-- BTreeMap insert on the sorted association list: replaces an existing
binding of the same key. -/
def mapInsert (k : String × String) (v : VpcSummary) : VpcMap → VpcMap
  | [] => [(k, v)]
  | (k', v') :: rest =>
    if keyLt k k' then (k, v) :: (k', v') :: rest
    else if k = k' then (k, v) :: rest
    else (k', v') :: mapInsert k v rest

/-- The NotFound provider error the source skips in list_filtered_vpcs. -/
def notFoundErr : AwsError :=
  { code := some "InvalidVpcID.NotFound", message := "vpc does not exist" }

/-- A generic non-NotFound provider error. -/
def accessDeniedErr : AwsError :=
  { code := some "AccessDenied", message := "not authorized" }

/-- A region world in which every call succeeds with an empty response. -/
def benignRegionEnv : RegionEnv where
  describeVpcsById := fun _ => .ok []
  describeVpcsAll := .ok []
  describeInternetGateways := fun _ => .ok []
  describeVpcPeeringConnections := fun _ _ => .ok []
  describeInstancesItems := fun _ => []
  describeNetworkInterfaces := fun _ => .ok []
  describeNatGateways := fun _ => .ok []
  describeFlowLogs := fun _ => .ok []
  describeLoadBalancers := .ok []
  describeTargetGroups := .ok []
  describeDbInstances := .ok []
  describeDbClusters := .ok []
  describeDocdbClusters := .ok []

/-- A VPC whose CIDR multiset is the ["10.0.0.0/16", "10.0.0.0/16",
"10.1.0.0/16"] scenario: primary block plus a duplicate association plus a
distinct association. -/
def vpcAbc : Vpc :=
  { vpcId := some "vpc-abc",
    tags := [{ key := some "Name", value := some "alpha" }],
    cidrBlock := some "10.0.0.0/16",
    cidrBlockAssociationSet := [some "10.0.0.0/16", some "10.1.0.0/16"],
    ipv6CidrBlockAssociationSet := [] }

/-- A second, unnamed VPC. -/
def vpcXyz : Vpc :=
  { vpcId := some "vpc-xyz", tags := [], cidrBlock := some "172.16.0.0/16",
    cidrBlockAssociationSet := [], ipv6CidrBlockAssociationSet := [] }

/-- Concrete two-region world: region r1 holds vpc-abc whose load-balancer
scanner call fails while its EC2 and RDS scanner calls succeed; region r2
holds vpc-xyz with all calls succeeding. -/
def envW : String → RegionEnv := fun r =>
  if r = "r1" then
    { benignRegionEnv with
      describeVpcsById := fun id =>
        if id = "vpc-abc" then .ok [vpcAbc] else .error notFoundErr,
      describeInternetGateways := fun _ => .ok ["igw-1"],
      describeInstancesItems := fun _ =>
        [.ok { instanceId := some "i-123",
               tags := [{ key := some "Name", value := some "web" }] }],
      describeLoadBalancers := .error accessDeniedErr,
      describeDbClusters :=
        .ok [{ dbClusterArn := some "arn:cluster-1",
               dbClusterIdentifier := some "cl1" }] }
  else
    { benignRegionEnv with
      describeVpcsById := fun id =>
        if id = "vpc-xyz" then .ok [vpcXyz] else .error notFoundErr }

/-- A world in which the peering query of vpc-abc fails while a second VPC
(vpc-xyz) would still be scannable. -/
def envC2 : String → RegionEnv := fun _ =>
  { benignRegionEnv with
    describeVpcsAll := .ok [vpcAbc, vpcXyz],
    describeVpcPeeringConnections := fun _ v =>
      if v = "vpc-abc" then .error accessDeniedErr else .ok [] }

/-- A world in which the internet-gateway query of vpc-abc fails while its
listing and peering queries succeed. -/
def envC2b : String → RegionEnv := fun _ =>
  { benignRegionEnv with
    describeVpcsAll := .ok [vpcAbc],
    describeInternetGateways := fun _ => .error accessDeniedErr }

/-- A world in which the CIDR query of vpc-abc fails (its by-id describe call
errors) while its listing, peering and internet-gateway queries succeed. -/
def envC2c : String → RegionEnv := fun _ =>
  { benignRegionEnv with
    describeVpcsAll := .ok [vpcAbc],
    describeVpcsById := fun _ => .error accessDeniedErr }

/-- Peering ground set: two ACTIVE connections and one pending connection
touching vpc-abc, yielding the duplicate peer vpc-p1 from both sides. -/
def connsC5 : List VpcPeeringConnection :=
  [{ status := some .active, requesterVpcId := some "vpc-abc",
     accepterVpcId := some "vpc-p2" },
   { status := some .pendingAcceptance, requesterVpcId := some "vpc-abc",
     accepterVpcId := some "vpc-p3" },
   { status := some .active, requesterVpcId := some "vpc-p1",
     accepterVpcId := some "vpc-abc" },
   { status := some .active, requesterVpcId := some "vpc-abc",
     accepterVpcId := some "vpc-p1" }]

/-- A world whose peering call implements the AWS server-side filter over the
`connsC5` ground set. -/
def envC5 : RegionEnv :=
  { benignRegionEnv with
    describeVpcPeeringConnections := fun side v =>
      match side with
      | .requester => .ok (connsC5.filter fun pc => pc.requesterVpcId = some v)
      | .accepter => .ok (connsC5.filter fun pc => pc.accepterVpcId = some v) }

/-- A world in which describe_instances succeeds with one instance but the
subsequent describe_network_interfaces call fails. -/
def envC7 : RegionEnv :=
  { benignRegionEnv with
    describeInstancesItems := fun _ =>
      [.ok { instanceId := some "i-1", tags := [] }],
    describeNetworkInterfaces := fun _ => .error accessDeniedErr }

/-- A world in which describe_instances and describe_network_interfaces
succeed but the subsequent describe_nat_gateways call fails. -/
def envC7b : RegionEnv :=
  { benignRegionEnv with
    describeInstancesItems := fun _ =>
      [.ok { instanceId := some "i-1", tags := [] }],
    describeNatGateways := fun _ => .error accessDeniedErr }

/-- A world in which all EC2 scanner calls succeed except the final
describe_flow_logs call. -/
def envC7c : RegionEnv :=
  { benignRegionEnv with
    describeInstancesItems := fun _ =>
      [.ok { instanceId := some "i-1", tags := [] }],
    describeFlowLogs := fun _ => .error accessDeniedErr }

/-- A world holding a single VPC, used for the summary-only run. -/
def envW10 : String → RegionEnv := fun _ =>
  { benignRegionEnv with
    describeVpcsAll := .ok [vpcAbc],
    describeVpcsById := fun id =>
      if id = "vpc-abc" then .ok [vpcAbc] else .ok [] }

/-- The scan result of running `configW10` against `envW10`. -/
def resultW10 : ScanResult :=
  { vpcs := [(("r1", "vpc-abc"),
      { name := some "alpha", public := false,
        cidrs := ["10.0.0.0/16", "10.1.0.0/16"], peers := [],
        resources := [] })],
    regionsScanned := 1 }

/-- The scan result of running `configW` against `envW`. -/
def resultW : ScanResult :=
  { vpcs :=
      [(("r1", "vpc-abc"),
        { name := some "alpha", public := true,
          cidrs := ["10.0.0.0/16", "10.1.0.0/16"], peers := [],
          resources :=
            [{ arn := "i-123", rtype := "ec2.instance", name := "web" },
             { arn := "arn:cluster-1", rtype := "rds.cluster", name := "cl1" }] }),
       (("r2", "vpc-xyz"),
        { name := none, public := false, cidrs := ["172.16.0.0/16"],
          peers := [], resources := [] })],
    regionsScanned := 2 }

/-- One entry's worth of list_filtered_vpcs output for a single id. -/
def vpcEntries (renv : RegionEnv) (id : String) :
    List (String × Option String) :=
  match renv.describeVpcsById id with
  | .ok resp => resp.map fun v => (v.vpcId.getD "", vpcNameTag v.tags)
  | .error _ => []

/-- A per-id query outcome list_filtered_vpcs tolerates: success, or failure
with the NotFound code. -/
def BenignId (renv : RegionEnv) (id : String) : Prop :=
  (∃ l, renv.describeVpcsById id = .ok l) ∨
    ∃ e, renv.describeVpcsById id = .error e ∧
      e.code = some "InvalidVpcID.NotFound"

/-- The BTreeMap representation invariant: keys strictly increasing in the
lexicographic (region, vpc-id) order. -/
def MapSorted (m : VpcMap) : Prop := m.Pairwise fun a b => keyLt a.1 b.1

/-- cli.rs Cli for ls-vpc: raw argument values. -/
structure Cli where
  regions : List String
  vpcIds : List String
deriving DecidableEq

/-- The validation failures of config.rs Config::try_from. -/
inductive ConfigError where
  | noRegions
  | invalidVpcIdFormat (id : String)
deriving DecidableEq

/-- config.rs Config. -/
structure Config where
  regions : List String
  vpcIds : List String
  summaryOnly : Bool
deriving DecidableEq

/-- config.rs Config::try_from: non-empty regions, every id must start with
`vpc-` (first offender reported), and summary_only is set exactly when the id
filter is empty. -/
def Config.tryFrom (cli : Cli) : Except ConfigError Config :=
  if cli.regions.isEmpty then .error .noRegions
  else
    match cli.vpcIds.find? fun id => !(strStartsWith id "vpc-") with
    | some bad => .error (.invalidVpcIdFormat bad)
    | none =>
      .ok { regions := cli.regions, summaryOnly := cli.vpcIds.isEmpty,
            vpcIds := cli.vpcIds }

/-- Explicit-id configuration over regions listed out of lexicographic
order. -/
def configW : Config :=
  { regions := ["r2", "r1"], vpcIds := ["vpc-abc", "vpc-xyz"],
    summaryOnly := false }

/-- Summary-mode configuration over a single region. -/
def configC2 : Config :=
  { regions := ["r1"], vpcIds := [], summaryOnly := true }

/-- Empty-filter CLI arguments for ls-vpc. -/
def cliW10 : Cli := { regions := ["r1"], vpcIds := [] }

/-- The configuration Config::try_from produces for `cliW10`. -/
def configW10 : Config :=
  { regions := ["r1"], vpcIds := [], summaryOnly := true }

/-- The inner VPC loop of lib.rs run for one region: classify each listed VPC
(fatal on classification error) and insert its summary under
(region, vpc-id). -/
def scanVpcList (renv : RegionEnv) (region : String) (summaryOnly : Bool) :
    List (String × Option String) → VpcMap → Except AwsError VpcMap
  | [], acc => .ok acc
  | (vpcId, name) :: rest, acc => do
    let s ← scanVpcSummary renv summaryOnly vpcId name
    scanVpcList renv region summaryOnly rest (mapInsert (region, vpcId) s acc)

/-- The outer region loop of lib.rs run: list the VPCs of each region (fatal
on error) and fold the per-region scan into the shared map. -/
def runRegions (env : String → RegionEnv) (vpcIds : List String)
    (summaryOnly : Bool) : List String → VpcMap → Except AwsError VpcMap
  | [], acc => .ok acc
  | region :: rest, acc => do
    let vpcs ← list_vpcs (env region) vpcIds
    let acc' ← scanVpcList (env region) region summaryOnly vpcs acc
    runRegions env vpcIds summaryOnly rest acc'

/-- lib.rs run: the scan orchestrator.  `env` gives, per region name, the AWS
API world the per-region SdkConfig sees. -/
def run (env : String → RegionEnv) (config : Config) :
    Except AwsError ScanResult := do
  let vpcs ← runRegions env config.vpcIds config.summaryOnly config.regions []
  .ok { vpcs := vpcs, regionsScanned := config.regions.length }

/-- All three classification calls of the per-VPC loop succeed for this
VPC. -/
def ClassOk (renv : RegionEnv) (v : String) : Prop :=
  (∃ x, get_peer_vpcs renv v = .ok x) ∧ (∃ b, is_public renv v = .ok b) ∧
    ∃ c, get_cidrs renv v = .ok c

/-- The first provider error hit by the classification sequence of the
per-VPC loop (peering, then internet gateway, then CIDR, in source order)
is `e`. -/
def ClassFails (renv : RegionEnv) (v : String) (e : AwsError) : Prop :=
  get_peer_vpcs renv v = .error e ∨
    ((∃ x, get_peer_vpcs renv v = .ok x) ∧ is_public renv v = .error e) ∨
    ((∃ x, get_peer_vpcs renv v = .ok x) ∧ (∃ b, is_public renv v = .ok b) ∧
      get_cidrs renv v = .error e)

/-- Listing succeeds in every configured region and every listed VPC
classifies without provider error.  Nothing is assumed about the three
resource scanners. -/
def RunOk (env : String → RegionEnv) (config : Config) : Prop :=
  ∀ r ∈ config.regions, ∃ l, list_vpcs (env r) config.vpcIds = .ok l ∧
    ∀ p ∈ l, ClassOk (env r) p.1

end LsVpc

namespace LsRds

/-- Result from scanning RDS instances (lib.rs RdsInstance). -/
structure RdsInstance where
  region : String
  roleArn : Option String
  instanceId : String
deriving DecidableEq

/-- Result of an RDS scan operation (lib.rs ScanResult). -/
structure ScanResult where
  instances : List RdsInstance
deriving DecidableEq

/-- The remote interactions of the ls-rds library, recorded so that theorems
can state which remote calls a code path performs.  `assumeRoleBuild` is a
delegated-credential construction (AssumeRoleProvider::builder .. .build). -/
inductive Event where
  | stsGetCallerIdentity
  | assumeRoleBuild (roleArn : String) (region : String)
  | describeDbInstances (region : String)
  | describeDbInstancesAssumed (roleArn : String) (region : String)
  | orgListAccountsPage
deriving DecidableEq

/-- The AWS API world seen by ls-rds. -/
structure Env where
  callerIdentityAccount : Except AwsError (Option String)
  describeDbInstances : String → Except AwsError (List String)
  describeDbInstancesAssumed : String → String → Except AwsError (List String)
  orgAccountPages : List (Except AwsError (List String))

/-- lib.rs get_caller_account: one STS get_caller_identity call, the missing
account field defaulting to the empty string. -/
def get_caller_account (env : Env) : Except AwsError String × List Event :=
  (env.callerIdentityAccount.map fun a => a.getD "", [.stsGetCallerIdentity])

/-- lib.rs list_rds: one describe_db_instances call per region with ambient
credentials; a per-region error is logged and that region contributes no
records.  The source function only ever returns Ok, so it is embedded as a
total function. -/
def list_rds (env : Env) : List String → List RdsInstance × List Event
  | [] => ([], [])
  | region :: rest =>
    let here :=
      match env.describeDbInstances region with
      | .ok ids => ids.map fun i => RdsInstance.mk region none i
      | .error _ => []
    let (more, evs) := list_rds env rest
    (here ++ more, .describeDbInstances region :: evs)

/-- lib.rs scan_account: per region, build an AssumeRoleProvider for the role
and call describe_db_instances with it; a per-region error is logged and that
region contributes no records.  The source function only ever returns Ok. -/
def scan_account (env : Env) (roleArn : String) :
    List String → List RdsInstance × List Event
  | [] => ([], [])
  | region :: rest =>
    let here :=
      match env.describeDbInstancesAssumed roleArn region with
      | .ok ids => ids.map fun i => RdsInstance.mk region (some roleArn) i
      | .error _ => []
    let (more, evs) := scan_account env roleArn rest
    (here ++ more,
      .assumeRoleBuild roleArn region ::
        .describeDbInstancesAssumed roleArn region :: evs)

/-- lib.rs process_role_arns, loop body for one ARN: position 4 of the
colon-split ARN is compared to the caller account; on equality AssumeRole is
skipped and ambient credentials are used. -/
def processOneArn (env : Env) (regions : List String) (callerAccount : String)
    (arn : String) : List RdsInstance × List Event :=
  if arnAccountField arn = callerAccount then list_rds env regions
  else scan_account env arn regions

/-- lib.rs process_role_arns.  The source only ever returns Ok (both callees
are infallible), so it is embedded as a total function. -/
def process_role_arns (env : Env) (regions : List String)
    (callerAccount : String) : List String → List RdsInstance × List Event
  | [] => ([], [])
  | arn :: rest =>
    let (here, evs) := processOneArn env regions callerAccount arn
    let (more, evs') := process_role_arns env regions callerAccount rest
    (here ++ more, evs ++ evs')

/-- lib.rs enumerate_organization, paginator loop: a page error propagates;
each listed account id is scanned through the synthesized role ARN. -/
def enumerateOrgPages (env : Env) (regions : List String) :
    List (Except AwsError (List String)) →
    Except AwsError (List RdsInstance) × List Event
  | [] => (.ok [], [])
  | .error e :: _ => (.error e, [.orgListAccountsPage])
  | .ok accounts :: rest =>
    let scans := accounts.map fun accountId =>
      scan_account env ("arn:aws:iam::" ++ accountId ++ ":role/YourCrossAccountRole")
        regions
    let here := (scans.map Prod.fst).flatten
    let evs := (scans.map Prod.snd).flatten
    let (more, evs') := enumerateOrgPages env regions rest
    (more.map fun l => here ++ l, .orgListAccountsPage :: (evs ++ evs'))

/-- lib.rs enumerate_organization. -/
def enumerate_organization (env : Env) (regions : List String) :
    Except AwsError (List RdsInstance) × List Event :=
  enumerateOrgPages env regions env.orgAccountPages

/-- cli.rs Cli for ls-rds. -/
structure Cli where
  useOrg : Bool
  roleArns : List String
  regions : List String
deriving DecidableEq

/-- config.rs ScanMode. -/
inductive ScanMode where
  | currentAccount
  | organization
  | roleArns (arns : List String)
deriving DecidableEq

/-- config.rs Config. -/
structure Config where
  regions : List String
  mode : ScanMode
deriving DecidableEq

/-- The validation failures of config.rs Config::try_from. -/
inductive ConfigError where
  | noRegions
  | invalidRoleArnFormat (arn : String)
deriving DecidableEq

/-- The role ARN syntax accepted by config.rs Config::try_from:
starts_with("arn:aws:iam::") and contains(":role/"). -/
def validRoleArn (arn : String) : Bool :=
  strStartsWith arn "arn:aws:iam::" && containsSubstr arn ":role/"

/-- config.rs Config::try_from for ls-rds: non-empty regions, every role ARN
must pass the syntax check (first offender reported), then the mode is chosen:
use_org wins, else explicit ARNs, else current account. -/
def Config.tryFrom (cli : Cli) : Except ConfigError Config :=
  if cli.regions.isEmpty then .error .noRegions
  else
    match cli.roleArns.find? fun arn => !(validRoleArn arn) with
    | some bad => .error (.invalidRoleArnFormat bad)
    | none =>
      .ok { regions := cli.regions,
            mode :=
              if cli.useOrg then .organization
              else if !cli.roleArns.isEmpty then .roleArns cli.roleArns
              else .currentAccount }

/-- lib.rs run for ls-rds: resolve the caller account first (fatal on error),
then dispatch on the scan mode.  Region strings are trimmed as in the
source. -/
def run (env : Env) (config : Config) :
    Except AwsError ScanResult × List Event :=
  let (acct, evs0) := get_caller_account env
  match acct with
  | .error e => (.error e, evs0)
  | .ok callerAccount =>
    let regions := config.regions.map fun s => strTrim s
    match config.mode with
    | .organization =>
      let (r, evs) := enumerate_organization env regions
      (r.map fun is => ScanResult.mk is, evs0 ++ evs)
    | .roleArns arns =>
      let (is, evs) := process_role_arns env regions callerAccount arns
      (.ok (ScanResult.mk is), evs0 ++ evs)
    | .currentAccount =>
      let (is, evs) := list_rds env regions
      (.ok (ScanResult.mk is), evs0 ++ evs)

/-- The errors of a full ls-rds invocation: configuration resolution failure
or a fatal provider error inside run. -/
inductive RunError where
  | config (e : ConfigError)
  | aws (e : AwsError)
deriving DecidableEq

/-- The binary lifecycle: Config::try_from on the CLI arguments, then run.
A resolution failure terminates before any remote call, so the event trace is
empty. -/
def runFromCli (env : Env) (cli : Cli) :
    Except RunError ScanResult × List Event :=
  match Config.tryFrom cli with
  | .error e => (.error (.config e), [])
  | .ok config =>
    let (r, evs) := run env config
    (r.mapError fun e => .aws e, evs)

/-- A concrete ls-rds world with a fixed caller account. -/
def envR : Env :=
  { callerIdentityAccount := .ok (some "123456789012"),
    describeDbInstances := fun _ => .ok ["db-1"],
    describeDbInstancesAssumed := fun _ _ => .ok ["db-2"],
    orgAccountPages := [] }

/-- CLI arguments carrying one malformed role identifier. -/
def cliR8 : Cli :=
  { useOrg := false, roleArns := ["not-an-arn"], regions := ["us-east-1"] }

/-- Recognizes a delegated-credential construction event. -/
def isAssumeRoleBuild : Event → Bool
  | .assumeRoleBuild _ _ => true
  | _ => false

end LsRds

theorem char_toNat_inj {c d : Char} (h : c.toNat = d.toNat) : c = d :=
  Char.ext (UInt32.ext h)

theorem charsLtb_irrefl : ∀ l, charsLtb l l = false
  | [] => rfl
  | c :: cs => by
    simp [charsLtb, charsLtb_irrefl cs]

theorem charsLtb_asymm : ∀ a b, charsLtb a b = true → charsLtb b a = false
  | [], [] => by simp [charsLtb]
  | [], _ :: _ => by simp [charsLtb]
  | _ :: _, [] => by simp [charsLtb]
  | c :: cs, d :: ds => by
    simp only [charsLtb]
    rcases Nat.lt_trichotomy c.toNat d.toNat with h | h | h
    · simp [h, Nat.lt_asymm h]
    · rw [h]
      simp only [Nat.lt_irrefl, if_false]
      exact charsLtb_asymm cs ds
    · simp [h, Nat.lt_asymm h]

theorem charsLtb_trans : ∀ a b c, charsLtb a b = true → charsLtb b c = true →
    charsLtb a c = true
  | [], [], _ => by simp [charsLtb]
  | [], _ :: _, [] => by simp [charsLtb]
  | [], _ :: _, _ :: _ => by simp [charsLtb]
  | _ :: _, [], _ => by simp [charsLtb]
  | _ :: _, _ :: _, [] => by simp [charsLtb]
  | a :: as, b :: bs, c :: cs => by
    simp only [charsLtb]
    intro h1 h2
    rcases Nat.lt_trichotomy a.toNat b.toNat with hab | hab | hab
    · rcases Nat.lt_trichotomy b.toNat c.toNat with hbc | hbc | hbc
      · simp [Nat.lt_trans hab hbc]
      · simp [hbc ▸ hab]
      · rw [if_neg (Nat.lt_asymm hbc), if_pos hbc] at h2
        exact absurd h2 (by simp)
    · rcases Nat.lt_trichotomy b.toNat c.toNat with hbc | hbc | hbc
      · simp [hab ▸ hbc]
      · rw [hab, hbc] at h1 ⊢
        rw [hbc] at h2
        simp only [Nat.lt_irrefl, if_false] at h1 h2 ⊢
        exact charsLtb_trans as bs cs h1 h2
      · rw [if_neg (Nat.lt_asymm hbc), if_pos hbc] at h2
        exact absurd h2 (by simp)
    · rw [if_neg (Nat.lt_asymm hab), if_pos hab] at h1
      exact absurd h1 (by simp)

theorem charsLtb_eq_of_not : ∀ a b, charsLtb a b = false → charsLtb b a = false →
    a = b
  | [], [], _, _ => rfl
  | [], _ :: _, h, _ => by simp [charsLtb] at h
  | _ :: _, [], _, h => by simp [charsLtb] at h
  | a :: as, b :: bs, h1, h2 => by
    rcases Nat.lt_trichotomy a.toNat b.toNat with hab | hab | hab
    · simp [charsLtb, hab] at h1
    · have ha : a = b := char_toNat_inj hab
      subst ha
      simp only [charsLtb, Nat.lt_irrefl, if_neg (Nat.lt_irrefl _)] at h1 h2
      simp [charsLtb_eq_of_not as bs (by simpa using h1) (by simpa using h2)]
    · simp [charsLtb, hab, Nat.lt_asymm hab] at h2

theorem strLt_irrefl (a : String) : ¬ strLt a a := by
  simp [strLt, charsLtb_irrefl]

theorem strLt_asymm {a b : String} (h : strLt a b) : ¬ strLt b a := by
  simp [strLt] at h ⊢
  simp [charsLtb_asymm _ _ h]

theorem strLt_trans {a b c : String} (h1 : strLt a b) (h2 : strLt b c) :
    strLt a c :=
  charsLtb_trans _ _ _ h1 h2

theorem strLt_connex {a b : String} (h1 : ¬ strLt a b) (h2 : ¬ strLt b a) :
    a = b := by
  simp [strLt] at h1 h2
  exact String.ext (charsLtb_eq_of_not _ _ h1 h2)

theorem strLt_of_le_of_ne {a b : String} (h1 : strLe a b) (h2 : a ≠ b) :
    strLt a b := by
  by_cases h : strLt a b
  · exact h
  · exact absurd (strLt_connex h h1) h2

theorem strLt_of_lt_of_le {a b c : String} (h1 : strLt a b) (h2 : strLe b c) :
    strLt a c := by
  by_cases h : strLt a c
  · exact h
  · by_cases h' : strLt c a
    · exact absurd (strLt_trans h' h1) h2
    · exact absurd (strLt_connex h' h ▸ h1) h2

theorem strLe_of_lt {a b : String} (h : strLt a b) : strLe a b :=
  strLt_asymm h

theorem strLe_refl (a : String) : strLe a a := strLt_irrefl a

theorem strLe_total : ∀ a b : String, strLe a b ∨ strLe b a := by
  intro a b
  by_cases h : strLt b a
  · exact Or.inr (strLt_asymm h)
  · exact Or.inl h

theorem strLe_trans {a b c : String} (hab : strLe a b) (hbc : strLe b c) :
    strLe a c := by
  intro hca
  by_cases hbcs : strLt b c
  · exact hab (strLt_trans hbcs hca)
  · by_cases hcbs : strLt c b
    · exact hbc hcbs
    · refine hab ?_
      rw [strLt_connex hbcs hcbs]
      exact hca

theorem mem_dedupConsec : ∀ (l : List String) (x : String),
    x ∈ dedupConsec l ↔ x ∈ l
  | [], x => by simp [dedupConsec]
  | [a], x => by simp [dedupConsec]
  | a :: b :: rest, x => by
    by_cases hab : a = b
    · subst hab
      rw [dedupConsec, if_pos rfl, mem_dedupConsec (a :: rest) x]
      simp
    · rw [dedupConsec, if_neg hab]
      simp [mem_dedupConsec (b :: rest) x]

theorem dedupConsec_sorted_lt : ∀ l : List String, l.Sorted strLe →
    (dedupConsec l).Sorted strLt
  | [], _ => List.sorted_nil
  | [a], _ => List.sorted_singleton a
  | a :: b :: rest, h => by
    have htail : (b :: rest).Sorted strLe := h.of_cons
    by_cases hab : a = b
    · subst hab
      rw [dedupConsec, if_pos rfl]
      exact dedupConsec_sorted_lt (a :: rest) htail
    · rw [dedupConsec, if_neg hab]
      refine List.sorted_cons.2 ⟨?_, dedupConsec_sorted_lt (b :: rest) htail⟩
      intro x hx
      have hxmem : x ∈ b :: rest := (mem_dedupConsec _ x).1 hx
      have halb : strLt a b :=
        strLt_of_le_of_ne (List.rel_of_sorted_cons h b (by simp)) hab
      rcases List.mem_cons.1 hxmem with hxb | hxr
      · exact hxb ▸ halb
      · exact strLt_of_lt_of_le halb (List.rel_of_sorted_cons htail x hxr)

theorem dedupConsec_sorted_le {l : List String} (h : l.Sorted strLe) :
    (dedupConsec l).Sorted strLe :=
  (dedupConsec_sorted_lt l h).imp (fun hlt => strLe_of_lt hlt)

theorem dedupConsec_nodup {l : List String} (h : l.Sorted strLe) :
    (dedupConsec l).Nodup := by
  haveI : IsIrrefl String strLt := ⟨strLt_irrefl⟩
  exact (dedupConsec_sorted_lt l h).nodup

theorem mem_sortDedup {l : List String} {x : String} :
    x ∈ sortDedup l ↔ x ∈ l := by
  rw [sortDedup, mem_dedupConsec, sortStrings, List.mem_insertionSort]

theorem sortStrings_sorted (l : List String) : (sortStrings l).Sorted strLe := by
  haveI : IsTotal String strLe := ⟨strLe_total⟩
  haveI : IsTrans String strLe := ⟨fun _ _ _ h1 h2 => strLe_trans h1 h2⟩
  exact List.sorted_insertionSort strLe l

theorem sortDedup_sorted (l : List String) : (sortDedup l).Sorted strLe :=
  dedupConsec_sorted_le (sortStrings_sorted l)

theorem sortDedup_nodup (l : List String) : (sortDedup l).Nodup :=
  dedupConsec_nodup (sortStrings_sorted l)

theorem bindE_ok {ε α β : Type} (a : α) (f : α → Except ε β) :
    (Except.ok a >>= f) = f a := rfl

theorem bindE_error {ε α β : Type} (e : ε) (f : α → Except ε β) :
    ((Except.error e : Except ε α) >>= f) = .error e := rfl

theorem mapE_ok {ε α β : Type} (a : α) (f : α → β) :
    (Except.ok a : Except ε α).map f = .ok (f a) := rfl

theorem mapE_error {ε α β : Type} (e : ε) (f : α → β) :
    (Except.error e : Except ε α).map f = .error e := rfl

namespace LsVpc

theorem keyLt_trans {a b c : String × String} (h1 : keyLt a b)
    (h2 : keyLt b c) : keyLt a c := by
  rcases h1 with h1 | ⟨e1, h1⟩ <;> rcases h2 with h2 | ⟨e2, h2⟩
  · exact Or.inl (strLt_trans h1 h2)
  · exact Or.inl (e2 ▸ h1)
  · exact Or.inl (e1 ▸ h2)
  · exact Or.inr ⟨e1.trans e2, strLt_trans h1 h2⟩

theorem keyLt_irrefl (a : String × String) : ¬ keyLt a a := by
  rintro (h | ⟨_, h⟩) <;> exact strLt_irrefl _ h

theorem keyLt_connex {a b : String × String} (h1 : ¬ keyLt a b) (h2 : a ≠ b) :
    keyLt b a := by
  unfold keyLt at h1
  push_neg at h1
  by_cases hf : strLt b.1 a.1
  · exact Or.inl hf
  · have hfe : a.1 = b.1 := strLt_connex h1.1 hf
    have hs : ¬ strLt a.2 b.2 := h1.2 hfe
    by_cases hg : strLt b.2 a.2
    · exact Or.inr ⟨hfe.symm, hg⟩
    · exact absurd (Prod.ext hfe (strLt_connex hs hg)) h2

theorem mem_mapInsert {k : String × String} {v : VpcSummary} {m : VpcMap}
    {e : (String × String) × VpcSummary} (h : e ∈ mapInsert k v m) :
    e = (k, v) ∨ e ∈ m := by
  induction m with
  | nil =>
    rw [mapInsert] at h
    exact Or.inl (List.mem_singleton.1 h)
  | cons kv rest ih =>
    obtain ⟨k', v'⟩ := kv
    by_cases h1 : keyLt k k'
    · rw [mapInsert, if_pos h1] at h
      rcases List.mem_cons.1 h with he | hm
      · exact Or.inl he
      · exact Or.inr hm
    · by_cases h2 : k = k'
      · rw [mapInsert, if_neg h1, if_pos h2] at h
        rcases List.mem_cons.1 h with he | hm
        · exact Or.inl he
        · exact Or.inr (List.mem_cons.2 (Or.inr hm))
      · rw [mapInsert, if_neg h1, if_neg h2] at h
        rcases List.mem_cons.1 h with he | hm
        · exact Or.inr (he ▸ List.mem_cons_self _ _)
        · rcases ih hm with h3 | h3
          · exact Or.inl h3
          · exact Or.inr (List.mem_cons.2 (Or.inr h3))

theorem mapInsert_sorted {k : String × String} {v : VpcSummary} {m : VpcMap}
    (h : MapSorted m) : MapSorted (mapInsert k v m) := by
  induction m with
  | nil =>
    rw [mapInsert]
    exact List.pairwise_singleton _ _
  | cons kv rest ih =>
    obtain ⟨k', v'⟩ := kv
    rw [MapSorted, List.pairwise_cons] at h
    obtain ⟨hhead, hrest⟩ := h
    by_cases h1 : keyLt k k'
    · rw [mapInsert, if_pos h1]
      refine List.pairwise_cons.2 ⟨?_, List.pairwise_cons.2 ⟨hhead, hrest⟩⟩
      intro e he
      rcases List.mem_cons.1 he with he' | he'
      · rw [he']
        exact h1
      · exact keyLt_trans h1 (hhead e he')
    · by_cases h2 : k = k'
      · rw [mapInsert, if_neg h1, if_pos h2]
        refine List.pairwise_cons.2 ⟨?_, hrest⟩
        intro e he
        rw [h2]
        exact hhead e he
      · rw [mapInsert, if_neg h1, if_neg h2]
        refine List.pairwise_cons.2 ⟨?_, ih hrest⟩
        intro e he
        rcases mem_mapInsert he with he' | he'
        · rw [he']
          exact keyLt_connex h1 h2
        · exact hhead e he'

theorem scanVpcSummary_resources {renv : RegionEnv} {so : Bool} {v : String}
    {n : Option String} {s : VpcSummary}
    (h : scanVpcSummary renv so v n = .ok s) :
    s.resources = if so then [] else vpcResources renv v := by
  unfold scanVpcSummary at h
  cases hp : get_peer_vpcs renv v with
  | error e => rw [hp, bindE_error] at h; cases h
  | ok peers =>
    rw [hp, bindE_ok] at h
    cases hb : is_public renv v with
    | error e => rw [hb, bindE_error] at h; cases h
    | ok pub =>
      rw [hb, bindE_ok] at h
      cases hc : get_cidrs renv v with
      | error e => rw [hc, bindE_error] at h; cases h
      | ok cidrs =>
        rw [hc, bindE_ok] at h
        simp only [Except.ok.injEq] at h
        rw [← h]

theorem scanVpcSummary_ok {renv : RegionEnv} {v : String} (h : ClassOk renv v)
    (so : Bool) (n : Option String) :
    ∃ s, scanVpcSummary renv so v n = .ok s := by
  obtain ⟨⟨peers, hp⟩, ⟨pub, hb⟩, ⟨cidrs, hc⟩⟩ := h
  refine ⟨{ name := n, public := pub, cidrs := cidrs, peers := peers,
            resources := if so then [] else vpcResources renv v }, ?_⟩
  unfold scanVpcSummary
  rw [hp, bindE_ok, hb, bindE_ok, hc, bindE_ok]

theorem scanVpcList_entries {renv : RegionEnv} {region : String} {so : Bool}
    (P : (String × String) × VpcSummary → Prop)
    (hP : ∀ v n s, scanVpcSummary renv so v n = .ok s → P ((region, v), s)) :
    ∀ (l : List (String × Option String)) (acc m : VpcMap),
      (∀ e ∈ acc, P e) → scanVpcList renv region so l acc = .ok m →
      ∀ e ∈ m, P e
  | [], acc, m, hacc, h => by
    rw [scanVpcList] at h
    simp only [Except.ok.injEq] at h
    exact h ▸ hacc
  | (v, n) :: rest, acc, m, hacc, h => by
    rw [scanVpcList] at h
    cases hs : scanVpcSummary renv so v n with
    | error e => rw [hs, bindE_error] at h; cases h
    | ok s =>
      rw [hs, bindE_ok] at h
      refine scanVpcList_entries P hP rest _ m ?_ h
      intro e he
      rcases mem_mapInsert he with he' | he'
      · exact he' ▸ hP v n s hs
      · exact hacc e he'

theorem scanVpcList_sorted {renv : RegionEnv} {region : String} {so : Bool} :
    ∀ (l : List (String × Option String)) (acc m : VpcMap), MapSorted acc →
      scanVpcList renv region so l acc = .ok m → MapSorted m
  | [], acc, m, hacc, h => by
    rw [scanVpcList] at h
    simp only [Except.ok.injEq] at h
    exact h ▸ hacc
  | (v, n) :: rest, acc, m, hacc, h => by
    rw [scanVpcList] at h
    cases hs : scanVpcSummary renv so v n with
    | error e => rw [hs, bindE_error] at h; cases h
    | ok s =>
      rw [hs, bindE_ok] at h
      exact scanVpcList_sorted rest _ m (mapInsert_sorted hacc) h

theorem scanVpcList_ok (renv : RegionEnv) (region : String) (so : Bool) :
    ∀ (l : List (String × Option String)), (∀ p ∈ l, ClassOk renv p.1) →
      ∀ acc, ∃ m, scanVpcList renv region so l acc = .ok m
  | [], _, acc => ⟨acc, rfl⟩
  | (v, n) :: rest, h, acc => by
    obtain ⟨s, hs⟩ := scanVpcSummary_ok (h (v, n) (List.mem_cons_self _ _)) so n
    obtain ⟨m, hm⟩ :=
      scanVpcList_ok renv region so rest
        (fun p hp => h p (List.mem_cons.2 (Or.inr hp)))
        (mapInsert (region, v) s acc)
    refine ⟨m, ?_⟩
    rw [scanVpcList, hs, bindE_ok]
    exact hm

theorem runRegions_entries {env : String → RegionEnv} {vpcIds : List String}
    {so : Bool} (P : (String × String) × VpcSummary → Prop)
    (hP : ∀ region v n s, scanVpcSummary (env region) so v n = .ok s →
      P ((region, v), s)) :
    ∀ (rs : List String) (acc m : VpcMap), (∀ e ∈ acc, P e) →
      runRegions env vpcIds so rs acc = .ok m → ∀ e ∈ m, P e
  | [], acc, m, hacc, h => by
    rw [runRegions] at h
    simp only [Except.ok.injEq] at h
    exact h ▸ hacc
  | region :: rest, acc, m, hacc, h => by
    rw [runRegions] at h
    cases hl : list_vpcs (env region) vpcIds with
    | error e => rw [hl, bindE_error] at h; cases h
    | ok vpcs =>
      rw [hl, bindE_ok] at h
      cases hsl : scanVpcList (env region) region so vpcs acc with
      | error e => rw [hsl, bindE_error] at h; cases h
      | ok acc' =>
        rw [hsl, bindE_ok] at h
        exact runRegions_entries P hP rest acc' m
          (scanVpcList_entries P (hP region) vpcs acc acc' hacc hsl) h

theorem runRegions_sorted {env : String → RegionEnv} {vpcIds : List String}
    {so : Bool} :
    ∀ (rs : List String) (acc m : VpcMap), MapSorted acc →
      runRegions env vpcIds so rs acc = .ok m → MapSorted m
  | [], acc, m, hacc, h => by
    rw [runRegions] at h
    simp only [Except.ok.injEq] at h
    exact h ▸ hacc
  | region :: rest, acc, m, hacc, h => by
    rw [runRegions] at h
    cases hl : list_vpcs (env region) vpcIds with
    | error e => rw [hl, bindE_error] at h; cases h
    | ok vpcs =>
      rw [hl, bindE_ok] at h
      cases hsl : scanVpcList (env region) region so vpcs acc with
      | error e => rw [hsl, bindE_error] at h; cases h
      | ok acc' =>
        rw [hsl, bindE_ok] at h
        exact runRegions_sorted rest acc' m
          (scanVpcList_sorted vpcs acc acc' hacc hsl) h

theorem runRegions_ok (env : String → RegionEnv) (vpcIds : List String)
    (so : Bool) :
    ∀ (rs : List String),
      (∀ r ∈ rs, ∃ l, list_vpcs (env r) vpcIds = .ok l ∧
        ∀ p ∈ l, ClassOk (env r) p.1) →
      ∀ acc, ∃ m, runRegions env vpcIds so rs acc = .ok m
  | [], _, acc => ⟨acc, rfl⟩
  | region :: rest, h, acc => by
    obtain ⟨l, hl, hcls⟩ := h region (List.mem_cons_self _ _)
    obtain ⟨acc', hacc'⟩ := scanVpcList_ok (env region) region so l hcls acc
    obtain ⟨m, hm⟩ :=
      runRegions_ok env vpcIds so rest
        (fun r hr => h r (List.mem_cons.2 (Or.inr hr))) acc'
    refine ⟨m, ?_⟩
    rw [runRegions, hl, bindE_ok, hacc', bindE_ok]
    exact hm

theorem run_vpcs_eq {env : String → RegionEnv} {config : Config}
    {result : ScanResult} (h : run env config = .ok result) :
    ∃ m, runRegions env config.vpcIds config.summaryOnly config.regions [] =
      .ok m ∧ result.vpcs = m := by
  unfold run at h
  cases hm : runRegions env config.vpcIds config.summaryOnly config.regions []
    with
  | error e => rw [hm, bindE_error] at h; cases h
  | ok m =>
    rw [hm, bindE_ok] at h
    simp only [Except.ok.injEq] at h
    exact ⟨m, rfl, by rw [← h]⟩

theorem run_sorted {env : String → RegionEnv} {config : Config}
    {result : ScanResult} (h : run env config = .ok result) :
    MapSorted result.vpcs := by
  obtain ⟨m, hm, he⟩ := run_vpcs_eq h
  rw [he]
  exact runRegions_sorted config.regions [] m (List.Pairwise.nil) hm

theorem run_resources {env : String → RegionEnv} {config : Config}
    {result : ScanResult} (h : run env config = .ok result) :
    ∀ e ∈ result.vpcs,
      e.2.resources =
        if config.summaryOnly then [] else vpcResources (env e.1.1) e.1.2 := by
  obtain ⟨m, hm, he⟩ := run_vpcs_eq h
  rw [he]
  refine runRegions_entries
    (fun e => e.2.resources =
      if config.summaryOnly then [] else vpcResources (env e.1.1) e.1.2)
    ?_ config.regions [] m (by intro e he'; cases he') hm
  intro region v n s hs
  exact scanVpcSummary_resources hs

theorem run_ok_of_runOk {env : String → RegionEnv} {config : Config}
    (h : RunOk env config) : ∃ result, run env config = .ok result := by
  obtain ⟨m, hm⟩ :=
    runRegions_ok env config.vpcIds config.summaryOnly config.regions h []
  refine ⟨{ vpcs := m, regionsScanned := config.regions.length }, ?_⟩
  unfold run
  rw [hm, bindE_ok]

theorem scanVpcSummary_fails {renv : RegionEnv} {v : String} {e : AwsError}
    (h : ClassFails renv v e) (so : Bool) (n : Option String) :
    scanVpcSummary renv so v n = .error e := by
  rcases h with hp | ⟨⟨peers, hp⟩, hb⟩ | ⟨⟨peers, hp⟩, ⟨pub, hb⟩, hc⟩
  · unfold scanVpcSummary
    rw [hp, bindE_error]
  · unfold scanVpcSummary
    rw [hp, bindE_ok, hb, bindE_error]
  · unfold scanVpcSummary
    rw [hp, bindE_ok, hb, bindE_ok, hc, bindE_error]

theorem scanVpcList_fails (renv : RegionEnv) (region : String) (so : Bool)
    (v : String) (n : Option String)
    (postV : List (String × Option String)) (e : AwsError)
    (hsum : scanVpcSummary renv so v n = .error e) :
    ∀ (preV : List (String × Option String)),
      (∀ p ∈ preV, ClassOk renv p.1) →
      ∀ acc, scanVpcList renv region so (preV ++ (v, n) :: postV) acc =
        .error e
  | [], _, acc => by
    rw [List.nil_append, scanVpcList, hsum, bindE_error]
  | (v', n') :: preV, h, acc => by
    obtain ⟨s, hs⟩ :=
      scanVpcSummary_ok (h (v', n') (List.mem_cons_self _ _)) so n'
    rw [List.cons_append, scanVpcList, hs, bindE_ok]
    exact scanVpcList_fails renv region so v n postV e hsum preV
      (fun p hp => h p (List.mem_cons.2 (Or.inr hp))) _

theorem runRegions_fails (env : String → RegionEnv) (vpcIds : List String)
    (so : Bool) (r : String) (postR : List String) (e : AwsError)
    (lr : List (String × Option String))
    (hlist : list_vpcs (env r) vpcIds = .ok lr)
    (hscan : ∀ acc, scanVpcList (env r) r so lr acc = .error e) :
    ∀ (preR : List String),
      (∀ x ∈ preR, ∃ l, list_vpcs (env x) vpcIds = .ok l ∧
        ∀ p ∈ l, ClassOk (env x) p.1) →
      ∀ acc, runRegions env vpcIds so (preR ++ r :: postR) acc = .error e
  | [], _, acc => by
    rw [List.nil_append, runRegions, hlist, bindE_ok, hscan acc, bindE_error]
  | x :: preR, h, acc => by
    obtain ⟨l, hl, hcls⟩ := h x (List.mem_cons_self _ _)
    obtain ⟨acc', hacc'⟩ := scanVpcList_ok (env x) x so l hcls acc
    rw [List.cons_append, runRegions, hl, bindE_ok, hacc', bindE_ok]
    exact runRegions_fails env vpcIds so r postR e lr hlist hscan preR
      (fun y hy => h y (List.mem_cons.2 (Or.inr hy))) acc'

/-- C9: for every network, get_cidrs returns the primary CIDR block plus all
secondary IPv4 and IPv6 association blocks, sorted and de-duplicated. -/
theorem get_cidrs_sorted_dedup (renv : RegionEnv) (v : String) (vpc : Vpc)
    (tail : List Vpc) (h : renv.describeVpcsById v = .ok (vpc :: tail)) :
    ∃ l, get_cidrs renv v = .ok l ∧
      (∀ x, x ∈ l ↔ x ∈ vpc.cidrBlock.toList ++
        vpc.cidrBlockAssociationSet.filterMap id ++
        vpc.ipv6CidrBlockAssociationSet.filterMap id) ∧
      l.Sorted strLe ∧ l.Nodup := by
  refine ⟨sortDedup (vpc.cidrBlock.toList ++
      vpc.cidrBlockAssociationSet.filterMap id ++
      vpc.ipv6CidrBlockAssociationSet.filterMap id),
    ?_, ?_, sortDedup_sorted _, sortDedup_nodup _⟩
  · unfold get_cidrs
    rw [h, mapE_ok]
    simp only [List.head?]
  · intro x
    exact mem_sortDedup

/-- C9 witness: the CIDR multiset ["10.0.0.0/16", "10.0.0.0/16",
"10.1.0.0/16"] of vpc-abc collapses to the sorted de-duplicated list. -/
theorem get_cidrs_sorted_dedup_witness :
    (get_cidrs (envW "r1") "vpc-abc" = .ok ["10.0.0.0/16", "10.1.0.0/16"]) ∧
    ∃ l, get_cidrs (envW "r1") "vpc-abc" = .ok l ∧
      (∀ x, x ∈ l ↔ x ∈ vpcAbc.cidrBlock.toList ++
        vpcAbc.cidrBlockAssociationSet.filterMap id ++
        vpcAbc.ipv6CidrBlockAssociationSet.filterMap id) ∧
      l.Sorted strLe ∧ l.Nodup :=
  ⟨rfl, get_cidrs_sorted_dedup (envW "r1") "vpc-abc" vpcAbc [] rfl⟩

/-- C5: the peer list of get_peer_vpcs holds exactly the other sides of
ACTIVE peering connections (accepter side where this network requests, union
requester side where it accepts); non-ACTIVE states never contribute; the
list is sorted and de-duplicated. -/
theorem get_peer_vpcs_active_only (renv : RegionEnv) (v : String)
    (conns : List VpcPeeringConnection)
    (hreq : renv.describeVpcPeeringConnections .requester v =
      .ok (conns.filter fun pc => pc.requesterVpcId = some v))
    (hacc : renv.describeVpcPeeringConnections .accepter v =
      .ok (conns.filter fun pc => pc.accepterVpcId = some v)) :
    ∃ l, get_peer_vpcs renv v = .ok l ∧
      (∀ p, p ∈ l ↔ ∃ pc ∈ conns, pc.status = some PeeringState.active ∧
        ((pc.requesterVpcId = some v ∧ pc.accepterVpcId = some p) ∨
         (pc.accepterVpcId = some v ∧ pc.requesterVpcId = some p))) ∧
      l.Sorted strLe ∧ l.Nodup := by
  refine ⟨sortDedup
      (((conns.filter fun pc => pc.requesterVpcId = some v).filterMap fun pc =>
          if pc.status = some PeeringState.active then pc.accepterVpcId
          else none) ++
        ((conns.filter fun pc => pc.accepterVpcId = some v).filterMap fun pc =>
          if pc.status = some PeeringState.active then pc.requesterVpcId
          else none)),
    ?_, ?_, sortDedup_sorted _, sortDedup_nodup _⟩
  · unfold get_peer_vpcs collect_peers
    rw [hreq, mapE_ok, bindE_ok, hacc, mapE_ok, bindE_ok]
  · intro p
    rw [mem_sortDedup]
    simp only [List.mem_append, List.mem_filterMap, List.mem_filter,
      Option.ite_none_right_eq_some, decide_eq_true_eq]
    constructor
    · rintro (⟨pc, ⟨hm, hv⟩, hact, he⟩ | ⟨pc, ⟨hm, hv⟩, hact, he⟩)
      · exact ⟨pc, hm, hact, Or.inl ⟨hv, he⟩⟩
      · exact ⟨pc, hm, hact, Or.inr ⟨hv, he⟩⟩
    · rintro ⟨pc, hm, hact, ⟨hv, he⟩ | ⟨hv, he⟩⟩
      · exact Or.inl ⟨pc, ⟨hm, hv⟩, hact, he⟩
      · exact Or.inr ⟨pc, ⟨hm, hv⟩, hact, he⟩

/-- C5 witness: over the connsC5 ground set the pending connection is
excluded and the duplicate ACTIVE peer collapses, yielding the sorted list
["vpc-p1", "vpc-p2"]. -/
theorem get_peer_vpcs_active_only_witness :
    (get_peer_vpcs envC5 "vpc-abc" = .ok ["vpc-p1", "vpc-p2"]) ∧
    ∃ l, get_peer_vpcs envC5 "vpc-abc" = .ok l ∧
      (∀ p, p ∈ l ↔ ∃ pc ∈ connsC5, pc.status = some PeeringState.active ∧
        ((pc.requesterVpcId = some "vpc-abc" ∧ pc.accepterVpcId = some p) ∨
         (pc.accepterVpcId = some "vpc-abc" ∧ pc.requesterVpcId = some p))) ∧
      l.Sorted strLe ∧ l.Nodup :=
  ⟨rfl, get_peer_vpcs_active_only envC5 "vpc-abc" connsC5 rfl rfl⟩

/-- C7 counterexample: in the envC7 world the describe_instances half of
Ec2Scanner::scan collects one instance record, yet the failing
describe_network_interfaces call makes the whole scan return the error, so
the already-collected record is discarded and the scanner contributes zero
records. -/
theorem ec2_scan_partial_results_cex :
    ec2CollectInstances (envC7.describeInstancesItems "vpc-a") =
      .ok [{ arn := "i-1", rtype := "ec2.instance", name := "" }] ∧
    ec2ScannerScan envC7 "vpc-a" = .error accessDeniedErr ∧
    okOrEmpty (ec2ScannerScan envC7 "vpc-a") = [] :=
  ⟨rfl, rfl, rfl⟩

/-- C7 amended: within Ec2Scanner::scan, a failure of any later API call
(network-interfaces, NAT gateways, or flow-logs) makes the whole scanner
invocation return that error, discarding the records already collected from
the earlier successful calls; the orchestrator (okOrEmpty, the if-let-Ok of
run) then records zero resources from this scanner for this network. -/
theorem ec2_scan_later_failure_discards (renv : RegionEnv) (v : String)
    (e : AwsError) (recs : List ResourceRecord)
    (hinst : ec2CollectInstances (renv.describeInstancesItems v) = .ok recs) :
    (renv.describeNetworkInterfaces v = .error e →
      ec2ScannerScan renv v = .error e ∧
        okOrEmpty (ec2ScannerScan renv v) = []) ∧
    (∀ enis, renv.describeNetworkInterfaces v = .ok enis →
      renv.describeNatGateways v = .error e →
      ec2ScannerScan renv v = .error e ∧
        okOrEmpty (ec2ScannerScan renv v) = []) ∧
    (∀ enis ngws, renv.describeNetworkInterfaces v = .ok enis →
      renv.describeNatGateways v = .ok ngws →
      renv.describeFlowLogs v = .error e →
      ec2ScannerScan renv v = .error e ∧
        okOrEmpty (ec2ScannerScan renv v) = []) := by
  refine ⟨?_, ?_, ?_⟩
  · intro heni
    have hscan : ec2ScannerScan renv v = .error e := by
      unfold ec2ScannerScan
      rw [hinst, bindE_ok, heni, bindE_error]
    exact ⟨hscan, by rw [hscan]; rfl⟩
  · intro enis heni hngw
    have hscan : ec2ScannerScan renv v = .error e := by
      unfold ec2ScannerScan
      rw [hinst, bindE_ok, heni, bindE_ok, hngw, bindE_error]
    exact ⟨hscan, by rw [hscan]; rfl⟩
  · intro enis ngws heni hngw hfl
    have hscan : ec2ScannerScan renv v = .error e := by
      unfold ec2ScannerScan
      rw [hinst, bindE_ok, heni, bindE_ok, hngw, bindE_ok, hfl, bindE_error]
    exact ⟨hscan, by rw [hscan]; rfl⟩

/-- C7 amended witness: three instantiations of the discarding theorem, one
per failing later call: network-interfaces in envC7, NAT gateways in envC7b,
flow-logs in envC7c; each scan fails and contributes zero records. -/
theorem ec2_scan_later_failure_discards_witness :
    (ec2ScannerScan envC7 "vpc-a" = .error accessDeniedErr ∧
      okOrEmpty (ec2ScannerScan envC7 "vpc-a") = []) ∧
    (ec2ScannerScan envC7b "vpc-a" = .error accessDeniedErr ∧
      okOrEmpty (ec2ScannerScan envC7b "vpc-a") = []) ∧
    (ec2ScannerScan envC7c "vpc-a" = .error accessDeniedErr ∧
      okOrEmpty (ec2ScannerScan envC7c "vpc-a") = []) :=
  ⟨(ec2_scan_later_failure_discards envC7 "vpc-a" accessDeniedErr
      [{ arn := "i-1", rtype := "ec2.instance", name := "" }] rfl).1 rfl,
   (ec2_scan_later_failure_discards envC7b "vpc-a" accessDeniedErr
      [{ arn := "i-1", rtype := "ec2.instance", name := "" }] rfl).2.1
      [] rfl rfl,
   (ec2_scan_later_failure_discards envC7c "vpc-a" accessDeniedErr
      [{ arn := "i-1", rtype := "ec2.instance", name := "" }] rfl).2.2
      [] [] rfl rfl rfl⟩

/-- C2 counterexample: in the envC2 world the peering query of the first
listed VPC fails, and run aborts with that error instead of continuing with
the remaining network and defaulting the public flag to false. -/
theorem classification_error_not_isolated_cex :
    run envC2 configC2 = .error accessDeniedErr ∧
    ∀ result, run envC2 configC2 ≠ .ok result := by
  refine ⟨rfl, ?_⟩
  intro result h
  rw [show run envC2 configC2 = .error accessDeniedErr from rfl] at h
  cases h

/-- C2 amended: a provider error raised by any of the three network
classification calls (the peering query, the internet-gateway query, or the
CIDR query) of any network the run reaches is fatal to the whole run: it
propagates out of run, no ScanResult is produced, and the remaining networks
and regions are not scanned.  The failing network may sit at any position:
earlier regions and earlier networks of the failing region are only required
to scan cleanly so that the run actually reaches it. -/
theorem classification_error_aborts_run (env : String → RegionEnv)
    (config : Config) (preR : List String) (r : String) (postR : List String)
    (preV : List (String × Option String)) (v : String) (n : Option String)
    (postV : List (String × Option String)) (e : AwsError)
    (hreg : config.regions = preR ++ r :: postR)
    (hpre : ∀ x ∈ preR, ∃ l, list_vpcs (env x) config.vpcIds = .ok l ∧
      ∀ p ∈ l, ClassOk (env x) p.1)
    (hlist : list_vpcs (env r) config.vpcIds = .ok (preV ++ (v, n) :: postV))
    (hpreV : ∀ p ∈ preV, ClassOk (env r) p.1)
    (hfail : ClassFails (env r) v e) :
    run env config = .error e := by
  have hsum := scanVpcSummary_fails hfail config.summaryOnly n
  have hscan := scanVpcList_fails (env r) r config.summaryOnly v n postV e
    hsum preV hpreV
  unfold run
  rw [hreg, runRegions_fails env config.vpcIds config.summaryOnly r postR e
    (preV ++ (v, n) :: postV) hlist hscan preR hpre [], bindE_error]

/-- C2 amended witness: three instantiations over the single-region worlds,
one per classification call: the peering query fails in envC2, the
internet-gateway query fails in envC2b, and the CIDR query fails in envC2c;
each time the whole run returns the provider error. -/
theorem classification_error_aborts_run_witness :
    run envC2 configC2 = .error accessDeniedErr ∧
    run envC2b configC2 = .error accessDeniedErr ∧
    run envC2c configC2 = .error accessDeniedErr :=
  ⟨classification_error_aborts_run envC2 configC2 [] "r1" [] [] "vpc-abc"
      (some "alpha") [("vpc-xyz", none)] accessDeniedErr rfl
      (by intro x hx; cases hx) rfl (by intro p hp; cases hp) (Or.inl rfl),
   classification_error_aborts_run envC2b configC2 [] "r1" [] [] "vpc-abc"
      (some "alpha") [] accessDeniedErr rfl
      (by intro x hx; cases hx) rfl (by intro p hp; cases hp)
      (Or.inr (Or.inl ⟨⟨[], rfl⟩, rfl⟩)),
   classification_error_aborts_run envC2c configC2 [] "r1" [] [] "vpc-abc"
      (some "alpha") [] accessDeniedErr rfl
      (by intro x hx; cases hx) rfl (by intro p hp; cases hp)
      (Or.inr (Or.inr ⟨⟨[], rfl⟩, ⟨false, rfl⟩, rfl⟩))⟩

theorem list_filtered_ok (renv : RegionEnv) :
    ∀ filter : List String, (∀ id ∈ filter, BenignId renv id) →
      list_filtered_vpcs renv filter = .ok (filter.flatMap (vpcEntries renv))
  | [], _ => rfl
  | id :: rest, h => by
    have hrec := list_filtered_ok renv rest fun j hj =>
      h j (List.mem_cons.2 (Or.inr hj))
    rcases h id (List.mem_cons_self _ _) with ⟨l, hl⟩ | ⟨e, he, hcode⟩
    · simp [list_filtered_vpcs, hl, hrec, vpcEntries, List.flatMap_cons,
        mapE_ok]
    · simp [list_filtered_vpcs, he, hcode, hrec, vpcEntries,
        List.flatMap_cons]

theorem list_filtered_propagates (renv : RegionEnv) :
    ∀ (pre : List String) (id : String) (post : List String) (e : AwsError),
      (∀ j ∈ pre, BenignId renv j) →
      renv.describeVpcsById id = .error e →
      e.code ≠ some "InvalidVpcID.NotFound" →
      list_filtered_vpcs renv (pre ++ id :: post) = .error e
  | [], id, post, e, _, herr, hcode => by
    simp [list_filtered_vpcs, herr, hcode]
  | j :: pre, id, post, e, hb, herr, hcode => by
    have hrec := list_filtered_propagates renv pre id post e
      (fun x hx => hb x (List.mem_cons.2 (Or.inr hx))) herr hcode
    rcases hb j (List.mem_cons_self _ _) with ⟨l, hl⟩ | ⟨e', he', hc'⟩
    · simp [list_filtered_vpcs, hl, hrec, mapE_error]
    · simp [list_filtered_vpcs, he', hc', hrec]

/-- C6: for a non-empty explicit id list, an id failing with the NotFound
code contributes no entry and no error while the ids that do resolve are
still returned; any error with a different code propagates to the caller. -/
theorem list_vpcs_notfound_tolerance (renv : RegionEnv)
    (filter : List String) (hne : filter ≠ []) :
    ((∀ id ∈ filter, BenignId renv id) →
      list_vpcs renv filter = .ok (filter.flatMap (vpcEntries renv))) ∧
    (∀ (pre : List String) (id : String) (post : List String) (e : AwsError),
      filter = pre ++ id :: post → (∀ j ∈ pre, BenignId renv j) →
      renv.describeVpcsById id = .error e →
      e.code ≠ some "InvalidVpcID.NotFound" →
      list_vpcs renv filter = .error e) := by
  have hfe : filter.isEmpty = false := by
    cases hcr : filter with
    | nil => exact absurd hcr hne
    | cons a as => rfl
  constructor
  · intro h
    simp only [list_vpcs, hfe, Bool.false_eq_true, if_false]
    exact list_filtered_ok renv filter h
  · intro pre id post e hsplit hb herr hcode
    simp only [list_vpcs, hfe, Bool.false_eq_true, if_false]
    rw [hsplit]
    exact list_filtered_propagates renv pre id post e hb herr hcode

/-- C6 witness: in region r1 the id vpc-nope is absent (NotFound) and is
silently skipped while vpc-abc is still returned. -/
theorem list_vpcs_notfound_tolerance_witness :
    (list_vpcs (envW "r1") ["vpc-abc", "vpc-nope"] =
      .ok (["vpc-abc", "vpc-nope"].flatMap (vpcEntries (envW "r1")))) ∧
    ["vpc-abc", "vpc-nope"].flatMap (vpcEntries (envW "r1")) =
      [("vpc-abc", some "alpha")] := by
  refine ⟨(list_vpcs_notfound_tolerance (envW "r1") ["vpc-abc", "vpc-nope"]
    (by decide)).1 ?_, rfl⟩
  intro id hid
  rcases List.mem_cons.1 hid with h | h
  · subst h
    exact Or.inl ⟨[vpcAbc], rfl⟩
  · rcases List.mem_cons.1 h with h' | h'
    · subst h'
      exact Or.inr ⟨notFoundErr, rfl, rfl⟩
    · cases h'

/-- The envW world satisfies RunOk for configW: listing succeeds in both
regions and both VPCs classify cleanly (nothing is assumed about the
scanners, one of which fails in r1). -/
theorem envW_runOk : RunOk envW configW := by
  intro r hr
  simp only [configW] at hr
  rcases List.mem_cons.1 hr with h | h
  · subst h
    refine ⟨[("vpc-xyz", none)], rfl, ?_⟩
    intro p hp
    simp only [List.mem_singleton] at hp
    subst hp
    exact ⟨⟨[], rfl⟩, ⟨false, rfl⟩, ⟨["172.16.0.0/16"], rfl⟩⟩
  · rcases List.mem_cons.1 h with h' | h'
    · subst h'
      refine ⟨[("vpc-abc", some "alpha")], rfl, ?_⟩
      intro p hp
      simp only [List.mem_singleton] at hp
      subst hp
      exact ⟨⟨[], rfl⟩, ⟨true, rfl⟩, ⟨["10.0.0.0/16", "10.1.0.0/16"], rfl⟩⟩
    · cases h'

/-- C1: when listing and classification succeed, the run completes
successfully whatever the three scanners do, and every stored record's
resource list is exactly the concatenation of the successful scanners'
records, the failing ones contributing the empty list. -/
theorem run_isolates_scanner_failures (env : String → RegionEnv)
    (config : Config) (hso : config.summaryOnly = false)
    (hok : RunOk env config) :
    ∃ result, run env config = .ok result ∧
      ∀ r v s, ((r, v), s) ∈ result.vpcs →
        s.resources = okOrEmpty (ec2ScannerScan (env r) v) ++
          okOrEmpty (elbScannerScan (env r) v) ++
          okOrEmpty (rdsScannerScan (env r) v) := by
  obtain ⟨result, hres⟩ := run_ok_of_runOk hok
  refine ⟨result, hres, ?_⟩
  intro r v s hmem
  have h := run_resources hres ((r, v), s) hmem
  rw [hso] at h
  simpa [vpcResources] using h

/-- C1 witness: in envW the load-balancer scanner of r1 fails, yet the run
succeeds and the vpc-abc record keeps the EC2 and RDS records. -/
theorem run_isolates_scanner_failures_witness :
    (elbScannerScan (envW "r1") "vpc-abc" = .error accessDeniedErr) ∧
    ∃ result, run envW configW = .ok result ∧
      ∀ r v s, ((r, v), s) ∈ result.vpcs →
        s.resources = okOrEmpty (ec2ScannerScan (envW r) v) ++
          okOrEmpty (elbScannerScan (envW r) v) ++
          okOrEmpty (rdsScannerScan (envW r) v) :=
  ⟨rfl, run_isolates_scanner_failures envW configW rfl envW_runOk⟩

/-- C3: the key sequence of any successful run is strictly increasing in the
lexicographic (region, network-id) order, hence also duplicate free,
whatever order regions and networks were processed in. -/
theorem scan_result_keys_sorted_unique (env : String → RegionEnv)
    (config : Config) (result : ScanResult)
    (h : run env config = .ok result) :
    List.Pairwise keyLt (result.vpcs.map Prod.fst) ∧
      (result.vpcs.map Prod.fst).Nodup := by
  have hp : List.Pairwise keyLt (result.vpcs.map Prod.fst) := by
    rw [List.pairwise_map]
    exact run_sorted h
  haveI : IsIrrefl (String × String) keyLt := ⟨keyLt_irrefl⟩
  exact ⟨hp, hp.nodup⟩

/-- C3 witness: configW lists r2 before r1, yet the resulting map iterates
r1 before r2 in sorted key order. -/
theorem scan_result_keys_sorted_unique_witness :
    run envW configW = .ok resultW ∧
      (List.Pairwise keyLt (resultW.vpcs.map Prod.fst) ∧
        (resultW.vpcs.map Prod.fst).Nodup) :=
  ⟨rfl, scan_result_keys_sorted_unique envW configW resultW rfl⟩

/-- C10: configuration construction sets summary_only exactly when the
explicit id filter is empty, and a summary-only run stores every record with
an empty resource list, so resources are only ever collected when explicit
network ids were supplied. -/
theorem summary_only_semantics (cli : Cli) (c : Config)
    (env : String → RegionEnv) (res : ScanResult) :
    (Config.tryFrom cli = .ok c → (c.summaryOnly = true ↔ c.vpcIds = [])) ∧
    (c.summaryOnly = true → run env c = .ok res →
      ∀ e ∈ res.vpcs, e.2.resources = []) := by
  constructor
  · intro h
    unfold Config.tryFrom at h
    cases hr : cli.regions.isEmpty with
    | true => rw [hr] at h; simp at h
    | false =>
      rw [hr] at h
      cases hf : cli.vpcIds.find? fun id => !(strStartsWith id "vpc-") with
      | some bad => rw [hf] at h; simp at h
      | none =>
        rw [hf] at h
        simp only [Bool.false_eq_true, if_false, Except.ok.injEq] at h
        rw [← h]
        simp [List.isEmpty_iff]
  · intro hso hrun e he
    have h := run_resources hrun e he
    rw [hso] at h
    simpa using h

/-- C10 witness: the empty-filter CLI produces a summary-only configuration
and its run stores the single record with no resources. -/
theorem summary_only_semantics_witness :
    (Config.tryFrom cliW10 = .ok configW10) ∧
    (configW10.summaryOnly = true ↔ configW10.vpcIds = []) ∧
    (run envW10 configW10 = .ok resultW10) ∧
    (∀ e ∈ resultW10.vpcs, e.2.resources = []) :=
  ⟨rfl, (summary_only_semantics cliW10 configW10 envW10 resultW10).1 rfl,
   rfl, (summary_only_semantics cliW10 configW10 envW10 resultW10).2 rfl rfl⟩

end LsVpc

namespace LsRds

theorem list_rds_no_assume (env : Env) :
    ∀ regions, ((list_rds env regions).2.filter isAssumeRoleBuild) = []
  | [] => rfl
  | r :: rest => by
    rcases hrec : list_rds env rest with ⟨more, evs⟩
    have ih := list_rds_no_assume env rest
    rw [hrec] at ih
    simp only [list_rds, hrec, List.filter_cons]
    simp [isAssumeRoleBuild, ih]

theorem scan_account_assume_events (env : Env) (roleArn : String) :
    ∀ regions, ((scan_account env roleArn regions).2.filter isAssumeRoleBuild) =
      regions.map fun r => Event.assumeRoleBuild roleArn r
  | [] => rfl
  | r :: rest => by
    rcases hrec : scan_account env roleArn rest with ⟨more, evs⟩
    have ih := scan_account_assume_events env roleArn rest
    rw [hrec] at ih
    simp only [scan_account, hrec, List.filter_cons]
    simp [isAssumeRoleBuild, ih]

theorem process_role_arns_append (env : Env) (regions : List String)
    (caller : String) :
    ∀ xs ys, process_role_arns env regions caller (xs ++ ys) =
      ((process_role_arns env regions caller xs).1 ++
        (process_role_arns env regions caller ys).1,
       (process_role_arns env regions caller xs).2 ++
        (process_role_arns env regions caller ys).2)
  | [], ys => by simp [process_role_arns]
  | x :: xs, ys => by
    rcases h1 : processOneArn env regions caller x with ⟨i1, e1⟩
    have ih := process_role_arns_append env regions caller xs ys
    simp only [List.cons_append, process_role_arns, h1, List.append_eq, ih,
      List.append_assoc]

/-- C4: process_role_arns handles each identifier independently, and for one
identifier: when the embedded account (position 4 of the colon split) equals
the caller account, scanning runs through list_rds with ambient credentials
and performs no delegated-credential construction; otherwise it runs through
scan_account with exactly one delegated-credential construction per scanned
region. -/
theorem process_role_arns_self_account (env : Env) (regions : List String)
    (caller : String) (pre : List String) (arn : String)
    (post : List String) :
    (process_role_arns env regions caller (pre ++ arn :: post)).2 =
      (process_role_arns env regions caller pre).2 ++
        (processOneArn env regions caller arn).2 ++
        (process_role_arns env regions caller post).2 ∧
    (arnAccountField arn = caller →
      processOneArn env regions caller arn = list_rds env regions ∧
      (processOneArn env regions caller arn).2.filter isAssumeRoleBuild =
        []) ∧
    (arnAccountField arn ≠ caller →
      processOneArn env regions caller arn = scan_account env arn regions ∧
      (processOneArn env regions caller arn).2.filter isAssumeRoleBuild =
        regions.map fun r => Event.assumeRoleBuild arn r) := by
  refine ⟨?_, ?_, ?_⟩
  · have happ := process_role_arns_append env regions caller pre (arn :: post)
    rw [happ]
    rcases h1 : processOneArn env regions caller arn with ⟨i1, e1⟩
    simp [process_role_arns, h1, List.append_assoc]
  · intro h
    unfold processOneArn
    rw [if_pos h]
    exact ⟨rfl, list_rds_no_assume env regions⟩
  · intro h
    unfold processOneArn
    rw [if_neg h]
    exact ⟨rfl, scan_account_assume_events env arn regions⟩

/-- C4 witness: the spec scenario identifier with caller account
123456789012 produces zero delegated-credential constructions, and with
caller account 999999999999 produces exactly one per scanned region. -/
theorem process_role_arns_self_account_witness :
    ((processOneArn envR ["us-east-1", "us-west-2"] "123456789012"
        "arn:aws:iam::123456789012:role/Foo").2.filter isAssumeRoleBuild =
      []) ∧
    ((processOneArn envR ["us-east-1", "us-west-2"] "999999999999"
        "arn:aws:iam::123456789012:role/Foo").2.filter isAssumeRoleBuild =
      ["us-east-1", "us-west-2"].map fun r =>
        Event.assumeRoleBuild "arn:aws:iam::123456789012:role/Foo" r) :=
  ⟨((process_role_arns_self_account envR ["us-east-1", "us-west-2"]
      "123456789012" [] "arn:aws:iam::123456789012:role/Foo" []).2.1
      (by decide)).2,
   ((process_role_arns_self_account envR ["us-east-1", "us-west-2"]
      "999999999999" [] "arn:aws:iam::123456789012:role/Foo" []).2.2
      (by decide)).2⟩

/-- C8: with a non-empty region list, any malformed delegated identifier
makes configuration resolution fail with the invalid-format error before any
remote interaction: the run produces a configuration error and an empty
event trace (no STS call, no describe call, no credential construction). -/
theorem malformed_arn_fails_before_remote_calls (env : Env) (cli : Cli)
    (arn : String) (hr : cli.regions ≠ []) (hmem : arn ∈ cli.roleArns)
    (hbad : validRoleArn arn = false) :
    ∃ bad, bad ∈ cli.roleArns ∧ validRoleArn bad = false ∧
      runFromCli env cli =
        (.error (.config (.invalidRoleArnFormat bad)), []) := by
  have hfe : cli.regions.isEmpty = false := by
    cases hcr : cli.regions with
    | nil => exact absurd hcr hr
    | cons a as => rfl
  have hsome : (cli.roleArns.find? fun a => !(validRoleArn a)).isSome := by
    rw [List.find?_isSome]
    exact ⟨arn, hmem, by simp [hbad]⟩
  cases hfind : cli.roleArns.find? fun a => !(validRoleArn a) with
  | none => rw [hfind] at hsome; simp at hsome
  | some bad =>
    have hbadmem := List.mem_of_find?_eq_some hfind
    have hbadval : validRoleArn bad = false := by
      have := List.find?_some hfind
      simpa using this
    refine ⟨bad, hbadmem, hbadval, ?_⟩
    unfold runFromCli Config.tryFrom
    rw [hfe, hfind]
    simp

/-- C8 witness: the identifier "not-an-arn" fails resolution with the
invalid-format error and the event trace stays empty. -/
theorem malformed_arn_fails_before_remote_calls_witness :
    ∃ bad, bad ∈ cliR8.roleArns ∧ validRoleArn bad = false ∧
      runFromCli envR cliR8 =
        (.error (.config (.invalidRoleArnFormat bad)), []) :=
  malformed_arn_fails_before_remote_calls envR cliR8 "not-an-arn"
    (by decide) (by decide) (by decide)

end LsRds

end AwsTools
